import Mathlib

/-!
Verification of the Partial Structure Extraction & Consistent Renumbering Engine
of the Bond_React_Python repository.

The file shallowly embeds `LammpsToMoleculePartial.lammps_to_molecule_partial`
and `MapTesting.Reaction` in Lean.  Record rows are flat lists of field values
(modelled as natural numbers used as opaque tokens; only identifier columns are
ever interpreted).  File I/O is abstracted away: the embedded core receives the
already-parsed per-section record collections and returns either an output
record or an error value, mirroring the Python exceptions
(AssertionError / ConfigurationError, KeyError, and the spec's IntegrityError).
The ambient working directory is threaded explicitly where a claim concerns it.

The helper functions imported from LammpsTreatmentFuncs and LammpsSearchFuncs
(find_partial_structure, extend_edge_atoms, edge_atom_fingerprint_ids,
refine_data, add_section_keyword) are not part of the given sources; each such
definition below is marked `Modelled from the spec:` and follows the spec text.
-/

namespace BondReact

/-- A record row: a flat ordered list of field values, as produced by the
parser/tidier collaborator (spec section 6).  Field values are opaque tokens;
atom-identifier columns hold the atom ids. -/
abbrev Row := List Nat

/-- Association-list lookup, modelling a Python dictionary access `d[k]`:
`some v` when the key is present, `none` when the access would raise KeyError. -/
def lookupKey {α : Type} : List (Nat × α) → Nat → Option α
  | [], _ => none
  | (k, v) :: rest, a => if k = a then some v else lookupKey rest a

/-- Total application of a renumbering map, defaulting to the identity on
ids outside the map's domain (used only to state idempotence of the map). -/
def applyMap (m : List (Nat × Nat)) (a : Nat) : Nat :=
  (lookupKey m a).getD a

/-- Modelled from the spec: the Bond Graph Builder (spec section 4.1) —
the atom ids directly bonded to `a`, read off the full bond record collection.
A bond row is `[bondId, bondType, atom1, atom2]`; both directions of every
bond are included (undirected adjacency). -/
def bondPartners (bondList : List Row) (a : Nat) : List Nat :=
  match bondList with
  | [] => []
  | row :: rest =>
    match row with
    | _ :: _ :: x :: y :: _ =>
      if x = a then y :: bondPartners rest a
      else if y = a then x :: bondPartners rest a
      else bondPartners rest a
    | _ => bondPartners rest a

/-- `pathWithin bondList k s a` holds when the bond graph of `bondList` has a
path from `s` to `a` of length at most `k`, i.e. the shortest-path distance
from `s` to `a` is at most `k`. -/
def pathWithin (bondList : List Row) : Nat → Nat → Nat → Bool
  | 0, s, a => s == a
  | k + 1, s, a =>
    (s == a) || (bondPartners bondList s).any (fun b => pathWithin bondList k b a)

/-- One round of the breadth-first expansion of the Reachability Selector:
adds to `valid` every bond partner of a member of `valid` that is neither
already present nor in the delete set (spec section 4.2: a deleted atom's
edges are non-traversable). -/
def expandOnce (bondList : List Row) (deleteAtoms : List Nat) (valid : List Nat) : List Nat :=
  valid ++ (((valid.map (bondPartners bondList)).flatten).filter
    (fun b => !(deleteAtoms.contains b) && !(valid.contains b))).dedup

/-- Modelled from the spec: LammpsSearchFuncs.find_partial_structure (not in
the given sources) — the Reachability Selector of spec section 4.2.
Breadth-first traversal from all seeds simultaneously, bounded by
`bondDistance`; atoms of the delete set are excluded and non-traversable.
Returns the ValidAtomSet together with the EdgeAtom list: the members of
ValidAtomSet having at least one original-graph neighbour outside it. -/
def find_partial_structure (bondingAtoms : List Nat) (bondList : List Row)
    (deleteAtoms : List Nat) (bondDistance : Nat) : List Nat × List Nat :=
  let init := (bondingAtoms.filter (fun a => !(deleteAtoms.contains a))).dedup
  let valid := (expandOnce bondList deleteAtoms)^[bondDistance] init
  let edges := valid.filter (fun a => (bondPartners bondList a).any (fun b => !(valid.contains b)))
  (valid, edges)

/-- Modelled from the spec: LammpsSearchFuncs.edge_atom_fingerprint_ids (not in
the given sources) — spec section 4.3: for every edge atom, the bonded
neighbour atom ids (in the original bond graph) that lie outside the supplied
valid atom set.  Which valid atom set is supplied is decided by the caller. -/
def edge_atom_fingerprint_ids (edgeAtomList : List Nat) (bondList : List Row)
    (validAtomSet : List Nat) : List (Nat × List Nat) :=
  edgeAtomList.map (fun e =>
    (e, (bondPartners bondList e).filter (fun b => !(validAtomSet.contains b))))

/-- Modelled from the spec: LammpsSearchFuncs.extend_edge_atoms (not in the
given sources) — spec section 4.2, boundary extension: re-admits the additional
atoms of the extension mapping into the valid atom set, then recomputes the
edge atom set against the enlarged valid atom set. -/
def extend_edge_atoms (extendDict : List (Nat × List Nat)) (bondList : List Row)
    (validAtomSet : List Nat) : List Nat × List Nat :=
  let valid := validAtomSet ++
    (((extendDict.map Prod.snd).flatten).filter (fun a => !(validAtomSet.contains a))).dedup
  let edges := valid.filter (fun a => (bondPartners bondList a).any (fun b => !(valid.contains b)))
  (valid, edges)

/-- Modelled from the spec: LammpsTreatmentFuncs.refine_data in atom mode (not
in the given sources) — spec section 4.4, contract for atoms: iterate the
original atoms in file order, keep exactly those whose id (column 0) is in the
valid atom set, assign each kept atom a new sequential id starting at `next`,
and record the old-to-new mapping. -/
def refine_atoms_aux (valid : List Nat) : Nat → List Row → List Row × List (Nat × Nat)
  | _, [] => ([], [])
  | next, row :: rest =>
    if valid.contains (row.getD 0 0) then
      let p := refine_atoms_aux valid (next + 1) rest
      ((row.set 0 next) :: p.1, (row.getD 0 0, next) :: p.2)
    else refine_atoms_aux valid next rest

/-- The Record Remapper's atom pass: filtered, renumbered atoms plus the
RenumberMap, numbering from 1 in encounter order. -/
def refine_atoms (atoms : List Row) (validAtomSet : List Nat) : List Row × List (Nat × Nat) :=
  refine_atoms_aux validAtomSet 1 atoms

/-- Rewrites the atom-id columns `cols` of a row through the renumber map;
`none` models the KeyError / IntegrityError raised when a referenced id does
not resolve in the map (spec sections 4.4 and 7). -/
def rewriteCols (m : List (Nat × Nat)) : List Nat → Row → Option Row
  | [], row => some row
  | c :: cs, row =>
    match lookupKey m (row.getD c 0) with
    | some v => rewriteCols m cs (row.set c v)
    | none => none

/-- Modelled from the spec: LammpsTreatmentFuncs.refine_data in relational mode
(not in the given sources) — spec section 4.4, contract for n-ary relational
records: a record is kept only if every atom id it references (the columns in
`cols`) is in the valid atom set; kept records have those columns rewritten
through the renumber map and their own identifier (column 0) reassigned
sequentially from `next` in survival order.  `none` models the fail-loud
IntegrityError when a kept record's id does not resolve in the map. -/
def refine_records_aux (cols : List Nat) (valid : List Nat) (m : List (Nat × Nat)) :
    Nat → List Row → Option (List Row)
  | _, [] => some []
  | next, row :: rest =>
    if cols.all (fun c => valid.contains (row.getD c 0)) then
      match rewriteCols m cols row with
      | none => none
      | some r =>
        match refine_records_aux cols valid m (next + 1) rest with
        | none => none
        | some rs => some ((r.set 0 next) :: rs)
    else refine_records_aux cols valid m next rest

/-- The Record Remapper's relational pass, numbering surviving records from 1. -/
def refine_records (cols : List Nat) (valid : List Nat) (m : List (Nat × Nat))
    (data : List Row) : Option (List Row) :=
  refine_records_aux cols valid m 1 data

/-- Modelled from the spec: LammpsTreatmentFuncs.add_section_keyword (not in
the given sources) — prepends the three section-header lines (blank line,
keyword line, blank line) to a non-empty section, and leaves an empty section
empty; the header recomputation in the source subtracts those three lines. -/
def add_section_keyword (data : List Row) : List Row :=
  if data.length > 0 then [] :: [] :: [] :: data else data

/-- The header-count computation of LammpsToMoleculePartial.py lines 103-112:
the count written for a section is its keyword-augmented length minus the three
added lines, or zero for an empty section. -/
def sectionCount (data : List Row) : Nat :=
  let d := add_section_keyword data
  if d.length > 0 then d.length - 3 else 0

/-- The error outcomes of an extraction run (spec section 7).
`configurationError` also stands for the AssertionError raised by the
bonding-atom check of the source; `keyError` models a Python KeyError from a
renumber-map lookup; `integrityError` the fail-loud dangling-reference case. -/
inductive ExtractError where
  | configurationError : ExtractError
  | keyError : ExtractError
  | integrityError : ExtractError
  deriving DecidableEq

/-- The in-memory result handed to the serializer: the renumbered sections,
the recomputed header counts, the comment contents (renumbered bonding atoms,
renumbered edge atoms, optionally renumbered delete atoms), the edge-atom
fingerprint id collection, the final valid atom set and the RenumberMap. -/
structure MoleculeOutput where
  types : List Row
  charges : List Row
  coords : List Row
  bonds : List Row
  angles : List Row
  dihedrals : List Row
  impropers : List Row
  headerCounts : List Nat
  bondingComment : List Nat
  edgeComment : List Nat
  deleteComment : Option (List Nat)
  fingerprints : List (Nat × List Nat)
  validAtomSet : List Nat
  renumberMap : List (Nat × Nat)
  deriving DecidableEq

/-- Assembles the output record from the remapped sections, mirroring the
assembly stage of the source (types/charges/coords split assuming atom style
full, header counts recomputed from the keyword-augmented section lengths). -/
def mkOutput (atoms2 bonds2 angles2 dihedrals2 impropers2 : List Row)
    (validAtomSet : List Nat) (m : List (Nat × Nat)) (fingerprints : List (Nat × List Nat))
    (rBond rEdge : List Nat) (rDel : Option (List Nat)) : MoleculeOutput :=
  let types2 := atoms2.map (fun a => [a.getD 0 0, a.getD 2 0])
  { types := types2
    charges := atoms2.map (fun a => [a.getD 0 0, a.getD 3 0])
    coords := atoms2.map (fun a => [a.getD 0 0, a.getD 4 0, a.getD 5 0, a.getD 6 0])
    bonds := bonds2
    angles := angles2
    dihedrals := dihedrals2
    impropers := impropers2
    headerCounts := [sectionCount types2, sectionCount bonds2, sectionCount angles2,
      sectionCount dihedrals2, sectionCount impropers2]
    bondingComment := rBond
    edgeComment := rEdge
    deleteComment := rDel
    fingerprints := fingerprints
    validAtomSet := validAtomSet
    renumberMap := m }

/-- The valid atom set and edge atom list actually used by the remapping steps
of the source: the find_partial_structure result, replaced by the
extend_edge_atoms result when an extension mapping is supplied
(LammpsToMoleculePartial.py lines 65-68). -/
def pipelineValid (bondList : List Row) (bondingAtoms deleteAtomsL : List Nat)
    (ext : Option (List (Nat × List Nat))) : List Nat × List Nat :=
  let fps := find_partial_structure bondingAtoms bondList deleteAtomsL 3
  match ext with
  | some d => extend_edge_atoms d bondList fps.1
  | none => fps

/-- The pre-extension partial-structure search result used by the source:
bond distance fixed at 3, the value passed at line 65. -/
def coreSearch (bondList : List Row) (bondingAtoms : List Nat)
    (deleteAtoms : Option (List Nat)) : List Nat × List Nat :=
  find_partial_structure bondingAtoms bondList (deleteAtoms.getD []) 3

/-- The edge-atom fingerprint collection as the source computes it at line 66:
from the pre-extension edge atom list against the pre-extension valid atom
set. -/
def coreFingerprints (bondList : List Row) (bondingAtoms : List Nat)
    (deleteAtoms : Option (List Nat)) : List (Nat × List Nat) :=
  edge_atom_fingerprint_ids (coreSearch bondList bondingAtoms deleteAtoms).2 bondList
    (coreSearch bondList bondingAtoms deleteAtoms).1

/-- The valid atom set / edge atom list pair after the optional extension. -/
def coreValidEdge (bondList : List Row) (bondingAtoms : List Nat)
    (deleteAtoms : Option (List Nat)) (ext : Option (List (Nat × List Nat))) :
    List Nat × List Nat :=
  pipelineValid bondList bondingAtoms (deleteAtoms.getD []) ext

/-- The renumber-map lookups performed for the comment lines of the output
(LammpsToMoleculePartial.py lines 123-133), in source order: bonding atoms,
edge atoms, then — only when a delete list was supplied — delete atoms.
`none` models the KeyError raised when any looked-up id is absent from the
RenumberMap. -/
def commentLookups (m : List (Nat × Nat)) (bondingAtoms edgeAtomList : List Nat)
    (deleteAtoms : Option (List Nat)) : Option (List Nat × List Nat × Option (List Nat)) :=
  match bondingAtoms.mapM (lookupKey m), edgeAtomList.mapM (lookupKey m) with
  | some rBond, some rEdge =>
    match deleteAtoms with
    | none => some (rBond, rEdge, none)
    | some das =>
      match das.mapM (lookupKey m) with
      | some rDel => some (rBond, rEdge, some rDel)
      | none => none
  | _, _ => none

/-- The core of LammpsToMoleculePartial.lammps_to_molecule_partial (lines
45-141), with file I/O abstracted away: the bonding-atom assertion, partial
structure search with bond distance fixed at 3, pre-extension fingerprint
capture, optional boundary extension, remapping of the five sections, header
recomputation, and the renumbered comment contents.  Errors abort the run
before any output value exists. -/
def lammps_to_molecule_partial_core (atoms bondList angleList dihedralList improperList : List Row)
    (bondingAtoms : List Nat) (deleteAtoms : Option (List Nat))
    (ext : Option (List (Nat × List Nat))) : Except ExtractError MoleculeOutput :=
  if bondingAtoms.length = 0 then .error .configurationError else
  match refine_records [2, 3] (coreValidEdge bondList bondingAtoms deleteAtoms ext).1
          (refine_atoms atoms (coreValidEdge bondList bondingAtoms deleteAtoms ext).1).2 bondList,
        refine_records [2, 3, 4] (coreValidEdge bondList bondingAtoms deleteAtoms ext).1
          (refine_atoms atoms (coreValidEdge bondList bondingAtoms deleteAtoms ext).1).2 angleList,
        refine_records [2, 3, 4, 5] (coreValidEdge bondList bondingAtoms deleteAtoms ext).1
          (refine_atoms atoms (coreValidEdge bondList bondingAtoms deleteAtoms ext).1).2
          dihedralList,
        refine_records [2, 3, 4, 5] (coreValidEdge bondList bondingAtoms deleteAtoms ext).1
          (refine_atoms atoms (coreValidEdge bondList bondingAtoms deleteAtoms ext).1).2
          improperList with
  | some bonds2, some angles2, some dihedrals2, some impropers2 =>
    match commentLookups
        (refine_atoms atoms (coreValidEdge bondList bondingAtoms deleteAtoms ext).1).2
        bondingAtoms (coreValidEdge bondList bondingAtoms deleteAtoms ext).2 deleteAtoms with
    | some c =>
      .ok (mkOutput (refine_atoms atoms (coreValidEdge bondList bondingAtoms deleteAtoms ext).1).1
        bonds2 angles2 dihedrals2 impropers2
        (coreValidEdge bondList bondingAtoms deleteAtoms ext).1
        (refine_atoms atoms (coreValidEdge bondList bondingAtoms deleteAtoms ext).1).2
        (coreFingerprints bondList bondingAtoms deleteAtoms) c.1 c.2.1 c.2.2)
    | none => .error .keyError
  | _, _, _, _ => .error .integrityError

/-- Whether an atom is both in the delete set and among the explicitly
force-extended atoms of the extension mapping. -/
def delete_extend_conflict (deleteAtoms : Option (List Nat))
    (ext : Option (List (Nat × List Nat))) : Bool :=
  (deleteAtoms.getD []).any (fun a => (((ext.getD []).map Prod.snd).flatten).contains a)

/-- Modelled from the spec: the configuration validation of spec section 7 —
conflicting delete/extend atom specifications are rejected before the
extraction runs.  This check is not present in the given sources (only its
caller is); it is placed in front of the embedded core. -/
def lammps_to_molecule_partial_checked (atoms bondList angleList dihedralList improperList : List Row)
    (bondingAtoms : List Nat) (deleteAtoms : Option (List Nat))
    (ext : Option (List (Nat × List Nat))) : Except ExtractError MoleculeOutput :=
  if delete_extend_conflict deleteAtoms ext then .error .configurationError
  else lammps_to_molecule_partial_core atoms bondList angleList dihedralList improperList
    bondingAtoms deleteAtoms ext

/-- The working-directory shell of the source function: after the bonding-atom
assertion it performs os.chdir(directory) (LammpsToMoleculePartial.py lines
45-50) and never restores the previous directory.  Directories are opaque
tokens; the first component of the result is the ambient working directory
after the call. -/
def lammps_to_molecule_partial_run (directory cwd : Nat)
    (atoms bondList angleList dihedralList improperList : List Row)
    (bondingAtoms : List Nat) (deleteAtoms : Option (List Nat))
    (ext : Option (List (Nat × List Nat))) : Nat × Except ExtractError MoleculeOutput :=
  if bondingAtoms.length = 0 then (cwd, .error .configurationError)
  else (directory, lammps_to_molecule_partial_core atoms bondList angleList dihedralList
    improperList bondingAtoms deleteAtoms ext)

/-- True exactly on successful extraction results. -/
def resultIsOk : Except ExtractError MoleculeOutput → Bool
  | .ok _ => true
  | .error _ => false

/-- The header counts of a successful result (empty on error). -/
def resultHeaderCounts : Except ExtractError MoleculeOutput → List Nat
  | .ok out => out.headerCounts
  | .error _ => []

/-- The types section of a successful result (empty on error). -/
def resultTypes : Except ExtractError MoleculeOutput → List Row
  | .ok out => out.types
  | .error _ => []

/-- The bonds section of a successful result (empty on error). -/
def resultBonds : Except ExtractError MoleculeOutput → List Row
  | .ok out => out.bonds
  | .error _ => []

/-- The angles section of a successful result (empty on error). -/
def resultAngles : Except ExtractError MoleculeOutput → List Row
  | .ok out => out.angles
  | .error _ => []

/-- The dihedrals section of a successful result (empty on error). -/
def resultDihedrals : Except ExtractError MoleculeOutput → List Row
  | .ok out => out.dihedrals
  | .error _ => []

/-- The impropers section of a successful result (empty on error). -/
def resultImpropers : Except ExtractError MoleculeOutput → List Row
  | .ok out => out.impropers
  | .error _ => []

/-- The edge-atom fingerprint collection of a successful result. -/
def resultFingerprints : Except ExtractError MoleculeOutput → List (Nat × List Nat)
  | .ok out => out.fingerprints
  | .error _ => []

/-- The final valid atom set of a successful result. -/
def resultValidAtomSet : Except ExtractError MoleculeOutput → List Nat
  | .ok out => out.validAtomSet
  | .error _ => []

/-- The RenumberMap of a successful result. -/
def resultMap : Except ExtractError MoleculeOutput → List (Nat × Nat)
  | .ok out => out.renumberMap
  | .error _ => []

/-- The correctness predicate for one remapped relational section: every
output record arises from an original record all of whose referenced atom-id
columns are in the valid atom set, with those columns rewritten through the
renumber map, and with its own identifier reassigned to its 1-based position
in survival order. -/
def refinedCorrectly (cols : List Nat) (valid : List Nat) (m : List (Nat × Nat))
    (data out : List Row) : Prop :=
  ∀ i, (hi : i < out.length) → ∃ orig ∈ data,
    (∀ c ∈ cols, orig.getD c 0 ∈ valid) ∧
    (rewriteCols m cols orig).isSome = true ∧
    out.get ⟨i, hi⟩ = ((rewriteCols m cols orig).getD []).set 0 (i + 1) ∧
    (out.get ⟨i, hi⟩).getD 0 0 = i + 1

end BondReact

namespace MapTesting

/-- The constructor of MapTesting.Reaction: saves the current working
directory, runs map_from_path (modelled as an arbitrary function returning the
mapped id list and the working directory it leaves behind, since PathSearch is
not among the given sources), then restores the saved directory with os.chdir.
Returns the mapped id list and the final working directory. -/
def reaction_init (map_from_path : Nat → List (Nat × Nat) × Nat) (cwd : Nat) :
    List (Nat × Nat) × Nat :=
  let startDir := cwd
  let mapped := (map_from_path cwd).1
  (mapped, startDir)

/-- The lines printed by MapTesting.Reaction.test_report, in order. -/
inductive PrintEvent where
  | reactionName : PrintEvent
  | mappedPair : Nat → Nat → PrintEvent
  | summary : Nat → Nat → PrintEvent
  | incorrectList : List Nat → PrintEvent
  | repeatedList : List Nat → PrintEvent
  deriving DecidableEq

/-- Whether a printed line is the accuracy summary line. -/
def PrintEvent.isSummary : PrintEvent → Bool
  | .summary _ _ => true
  | _ => false

/-- The exceptions test_report can raise mid-run. -/
inductive TestError where
  | keyError : TestError
  | zeroDivision : TestError
  deriving DecidableEq

/-- The accounting loop of test_report: for each mapped pair, looks up the
pre-reaction atom id in the correct-answer dictionary (KeyError when absent,
modelled as `none`), counts correct pairs and collects incorrect pre ids. -/
def countCorrect (mapped : List (Nat × Nat)) (correct : List (Nat × List Nat)) :
    Option (Nat × List Nat) :=
  match mapped with
  | [] => some (0, [])
  | (pre, post) :: rest =>
    match BondReact.lookupKey correct pre with
    | none => none
    | some posts =>
      (countCorrect rest correct).map (fun p =>
        if post ∈ posts then (p.1 + 1, p.2) else (p.1, pre :: p.2))

/-- MapTesting.Reaction.test_report: prints the reaction name and one line per
mapped pair, then runs the accounting loop; on a missing key the KeyError
aborts before the summary lines; on an empty correct-answer dictionary the
accuracy division raises ZeroDivisionError, also before the summary line is
completed.  Returns the printed lines together with the raised error, if any. -/
def test_report (mapped : List (Nat × Nat)) (correct : List (Nat × List Nat)) :
    List PrintEvent × Option TestError :=
  let pre := PrintEvent.reactionName :: mapped.map (fun p => PrintEvent.mappedPair p.1 p.2)
  match countCorrect mapped correct with
  | none => (pre, some TestError.keyError)
  | some p =>
    if correct.length = 0 then (pre, some TestError.zeroDivision)
    else
      let posts := mapped.map Prod.snd
      let repeated := posts.filter (fun v => posts.count v > 1)
      (pre ++ [PrintEvent.summary correct.length p.1, PrintEvent.incorrectList p.2,
        PrintEvent.repeatedList repeated], none)

end MapTesting

namespace BondReact

theorem sectionCount_eq (data : List Row) : sectionCount data = data.length := by
  rcases data with _ | ⟨r, rest⟩ <;> simp [sectionCount, add_section_keyword]

/-- C3: the claim expects every deleted atom id to be translated through the
RenumberMap and surfaced in a Delete_Atoms comment while the deleted atom never
appears in the output atoms.  On the two-atom molecule 1-2 with bonding atom 1
and delete atom 2, the deleted atom 2 is (per the spec) excluded from
ValidAtomSet, hence absent from the RenumberMap, so the source's lookup
renumberedAtomIDDict[da] raises KeyError and the extraction aborts: no
Delete_Atoms comment is ever produced. -/
theorem c3_delete_atoms_keyerror :
    lammps_to_molecule_partial_core [[1, 1, 1, 9, 0, 0, 0], [2, 1, 1, 9, 0, 0, 0]]
      [[1, 1, 1, 2]] [] [] [] [1] (some [2]) none = .error .keyError := by
  rfl

/-- C4: the extraction fails with the configuration error — and hence produces
no output value at all — when the bonding-atom set is empty (the source's
assertion at line 47) or when an atom is both deleted and explicitly
force-extended (the spec section 7 validation, modelled in
lammps_to_molecule_partial_checked). -/
theorem c4_configuration_error (atoms bondList angleList dihedralList improperList : List Row)
    (bondingAtoms : List Nat) (deleteAtoms : Option (List Nat))
    (ext : Option (List (Nat × List Nat)))
    (h : bondingAtoms = [] ∨ delete_extend_conflict deleteAtoms ext = true) :
    lammps_to_molecule_partial_checked atoms bondList angleList dihedralList improperList
      bondingAtoms deleteAtoms ext = .error .configurationError := by
  by_cases hc : delete_extend_conflict deleteAtoms ext = true
  · simp [lammps_to_molecule_partial_checked, hc]
  · rcases h with h | h
    · subst h
      simp [lammps_to_molecule_partial_checked, hc, lammps_to_molecule_partial_core]
    · exact absurd h hc

theorem c4_witness :
    lammps_to_molecule_partial_checked [] [] [] [] [] [] none none
      = .error .configurationError :=
  c4_configuration_error [] [] [] [] [] [] none none (Or.inl rfl)

/-- C8 counterexample: the source performs os.chdir(directory) itself (line
50): a run with working directory 0 on input directory 1 leaves the ambient
working directory changed to 1, refuting the claim that the core performs no
change of the ambient working directory. -/
theorem c8_chdir_counterexample :
    (lammps_to_molecule_partial_run 1 0 [] [] [] [] [] [1] none none).1 ≠ 0 := by
  decide

/-- C8 amended: each extraction call is a deterministic function of its
explicit inputs — in particular the extraction result does not depend on the
ambient working directory — but the call does navigate the filesystem: whenever
the bonding-atom assertion passes, it changes the ambient working directory to
the input directory and does not restore it. -/
theorem c8_deterministic_chdir (directory cwd cwd' : Nat)
    (atoms bondList angleList dihedralList improperList : List Row)
    (bondingAtoms : List Nat) (deleteAtoms : Option (List Nat))
    (ext : Option (List (Nat × List Nat))) (h : bondingAtoms.length ≠ 0) :
    (lammps_to_molecule_partial_run directory cwd atoms bondList angleList dihedralList
        improperList bondingAtoms deleteAtoms ext).1 = directory ∧
    (lammps_to_molecule_partial_run directory cwd atoms bondList angleList dihedralList
        improperList bondingAtoms deleteAtoms ext).2 =
      (lammps_to_molecule_partial_run directory cwd' atoms bondList angleList dihedralList
        improperList bondingAtoms deleteAtoms ext).2 := by
  simp [lammps_to_molecule_partial_run, h]

theorem c8_witness :
    (lammps_to_molecule_partial_run 1 0 [] [] [] [] [] [1] none none).1 = 1 ∧
    (lammps_to_molecule_partial_run 1 0 [] [] [] [] [] [1] none none).2 =
      (lammps_to_molecule_partial_run 1 5 [] [] [] [] [] [1] none none).2 :=
  c8_deterministic_chdir 1 0 5 [] [] [] [] [] [1] none none (by decide)

/-- C5 counterexample: on the atom collection listing atom 2 before atom 1 with
ValidAtomSet 1 and 2, the RenumberMap is 2 maps-to 1, 1 maps-to 2; applying the
map twice to atom id 2 gives 2, not 1, so applying the same map twice is not
idempotent (the same input also refutes the strict, KeyError-raising reading:
map(map 2) = map 1 = 2 differs from map 2 = 1). -/
theorem c5_idempotence_counterexample :
    applyMap ((refine_atoms [[2, 1, 1, 9, 0, 0, 0], [1, 1, 1, 9, 0, 0, 0]] [1, 2]).2)
      (applyMap ((refine_atoms [[2, 1, 1, 9, 0, 0, 0], [1, 1, 1, 9, 0, 0, 0]] [1, 2]).2) 2) ≠
    applyMap ((refine_atoms [[2, 1, 1, 9, 0, 0, 0], [1, 1, 1, 9, 0, 0, 0]] [1, 2]).2) 2 := by
  decide

/-- C2 counterexample: on the path molecule 1-2-3-4-5 with bonding atom 1
(ValidAtomSet 1..4, edge atom 4) and the extension mapping sending edge atom 4
to the additional atom 5, the source computes the fingerprint collection before
the extension: the stored fingerprint of edge atom 4 still contains atom 5 even
though 5 is inside the final, enlarged ValidAtomSet — refuting the claim that
fingerprints are computed against the post-extension ValidAtomSet. -/
theorem c2_fingerprints_counterexample :
    (4, [5]) ∈ resultFingerprints (lammps_to_molecule_partial_core
      [[1, 1, 1, 9, 0, 0, 0], [2, 1, 1, 9, 0, 0, 0], [3, 1, 1, 9, 0, 0, 0],
        [4, 1, 1, 9, 0, 0, 0], [5, 1, 1, 9, 0, 0, 0]]
      [[1, 1, 1, 2], [2, 1, 2, 3], [3, 1, 3, 4], [4, 1, 4, 5]] [] [] [] [1] none
      (some [(4, [5])])) ∧
    5 ∈ resultValidAtomSet (lammps_to_molecule_partial_core
      [[1, 1, 1, 9, 0, 0, 0], [2, 1, 1, 9, 0, 0, 0], [3, 1, 1, 9, 0, 0, 0],
        [4, 1, 1, 9, 0, 0, 0], [5, 1, 1, 9, 0, 0, 0]]
      [[1, 1, 1, 2], [2, 1, 2, 3], [3, 1, 3, 4], [4, 1, 4, 5]] [] [] [] [1] none
      (some [(4, [5])])) := by
  decide

end BondReact

namespace MapTesting

/-- C9: constructing a Reaction leaves the process working directory
unchanged: the constructor saves the current directory before invoking
map_from_path (which may leave any directory behind) and restores it with
os.chdir afterwards. -/
theorem c9_reaction_restores_cwd (map_from_path : Nat → List (Nat × Nat) × Nat) (cwd : Nat) :
    (reaction_init map_from_path cwd).2 = cwd := rfl

end MapTesting

namespace BondReact

theorem pathWithin_refl (bondList : List Row) (k a : Nat) : pathWithin bondList k a a = true := by
  cases k <;> simp [pathWithin]

theorem pathWithin_succ_iff (bondList : List Row) (k s a : Nat) :
    pathWithin bondList (k + 1) s a = true ↔
      s = a ∨ ∃ b ∈ bondPartners bondList s, pathWithin bondList k b a = true := by
  conv_lhs => rw [pathWithin]
  simp

theorem pathWithin_mono (bondList : List Row) (k : Nat) (s a : Nat)
    (h : pathWithin bondList k s a = true) : pathWithin bondList (k + 1) s a = true := by
  induction k generalizing s with
  | zero =>
    simp [pathWithin] at h
    exact (pathWithin_succ_iff bondList 0 s a).mpr (Or.inl h)
  | succ k ih =>
    rcases (pathWithin_succ_iff bondList k s a).mp h with h | ⟨b, hb, hp⟩
    · exact (pathWithin_succ_iff bondList (k + 1) s a).mpr (Or.inl h)
    · exact (pathWithin_succ_iff bondList (k + 1) s a).mpr (Or.inr ⟨b, hb, ih b hp⟩)

theorem pathWithin_snoc (bondList : List Row) (k : Nat) (s b a : Nat)
    (h : pathWithin bondList k s b = true) (hab : a ∈ bondPartners bondList b) :
    pathWithin bondList (k + 1) s a = true := by
  induction k generalizing s with
  | zero =>
    simp [pathWithin] at h
    subst h
    exact (pathWithin_succ_iff bondList 0 s a).mpr (Or.inr ⟨a, hab, by simp [pathWithin]⟩)
  | succ k ih =>
    rcases (pathWithin_succ_iff bondList k s b).mp h with h | ⟨c, hc, hp⟩
    · subst h
      exact (pathWithin_succ_iff bondList (k + 1) s a).mpr
        (Or.inr ⟨a, hab, pathWithin_refl bondList (k + 1) a⟩)
    · exact (pathWithin_succ_iff bondList (k + 1) s a).mpr (Or.inr ⟨c, hc, ih c hp⟩)

theorem mem_expandOnce (bondList : List Row) (deleteAtoms valid : List Nat) (x : Nat)
    (h : x ∈ expandOnce bondList deleteAtoms valid) :
    x ∈ valid ∨ (x ∉ deleteAtoms ∧ ∃ b ∈ valid, x ∈ bondPartners bondList b) := by
  simp [expandOnce, List.mem_filter] at h
  rcases h with h | ⟨b, hb, hx, hdel, -⟩
  · exact Or.inl h
  · exact Or.inr ⟨hdel, b, hb, hx⟩

theorem mem_iterate_expand (bondList : List Row) (deleteAtoms init : List Nat) (n a : Nat)
    (hinit : ∀ x ∈ init, x ∉ deleteAtoms)
    (h : a ∈ (expandOnce bondList deleteAtoms)^[n] init) :
    a ∉ deleteAtoms ∧ ∃ s ∈ init, pathWithin bondList n s a = true := by
  induction n generalizing a with
  | zero =>
    simp at h
    exact ⟨hinit a h, a, h, pathWithin_refl bondList 0 a⟩
  | succ n ih =>
    rw [Function.iterate_succ_apply'] at h
    rcases mem_expandOnce bondList deleteAtoms _ a h with h1 | ⟨hdel, b, hbV, hab⟩
    · obtain ⟨hd, s, hs, hp⟩ := ih a h1
      exact ⟨hd, s, hs, pathWithin_mono bondList n s a hp⟩
    · obtain ⟨-, s, hs, hp⟩ := ih b hbV
      exact ⟨hdel, s, hs, pathWithin_snoc bondList n s b a hp hab⟩

/-- C7: every atom of the ValidAtomSet produced by the partial-structure search
(before any boundary extension) is not a delete atom and lies within the
configured maximum bond distance — fixed at 3, the value the source passes at
line 65 — of some seed atom in the original bond graph: the shortest path from
some bonding atom to it has length at most 3. -/
theorem c7_distance_bound (bondingAtoms : List Nat) (bondList : List Row)
    (deleteAtoms : List Nat) (a : Nat)
    (h : a ∈ (find_partial_structure bondingAtoms bondList deleteAtoms 3).1) :
    a ∉ deleteAtoms ∧ ∃ s ∈ bondingAtoms, pathWithin bondList 3 s a = true := by
  simp only [find_partial_structure] at h
  have hinit : ∀ x ∈ (bondingAtoms.filter (fun a => !(deleteAtoms.contains a))).dedup,
      x ∉ deleteAtoms := by
    intro x hx
    simp [List.mem_filter] at hx
    exact hx.2
  obtain ⟨hd, s, hs, hp⟩ := mem_iterate_expand bondList deleteAtoms _ 3 a hinit h
  simp [List.mem_filter] at hs
  exact ⟨hd, s, hs.1, hp⟩

theorem c7_witness :
    2 ∉ ([] : List Nat) ∧ ∃ s ∈ [1], pathWithin [[1, 1, 1, 2]] 3 s 2 = true :=
  c7_distance_bound [1] [[1, 1, 1, 2]] [] 2 (by decide)

end BondReact

namespace BondReact

theorem refine_atoms_aux_fst_ids (valid : List Nat) (next : Nat) (atoms : List Row) :
    ((refine_atoms_aux valid next atoms).2).map Prod.fst
      = (atoms.map (fun r => r.getD 0 0)).filter (fun v => valid.contains v) := by
  induction atoms generalizing next with
  | nil => simp [refine_atoms_aux]
  | cons row rest ih =>
    by_cases hm : row[0]?.getD 0 ∈ valid <;>
      simp [refine_atoms_aux, hm, List.filter_cons, ih]

theorem refine_atoms_aux_snd_range (valid : List Nat) (next : Nat) (atoms : List Row) :
    ((refine_atoms_aux valid next atoms).2).map Prod.snd
      = List.range' next ((refine_atoms_aux valid next atoms).2).length := by
  induction atoms generalizing next with
  | nil => simp [refine_atoms_aux]
  | cons row rest ih =>
    by_cases hm : row[0]?.getD 0 ∈ valid <;>
      simp [refine_atoms_aux, hm, ih, List.range'_succ]

/-- C5 amended: the RenumberMap produced by the Record Remapper is a bijection
from ValidAtomSet onto 1..card(ValidAtomSet): its keys are exactly the valid
atom ids, listed in the order first encountered while iterating the original
Atoms collection, without repetition, and its values are exactly the dense
1-based range 1..card(ValidAtomSet) in assignment order.  (The further clause
of the original claim — that applying the same map twice is idempotent — is
false; see the counterexample.)  Hypotheses: the valid atom set has no
duplicates, the original atom ids are distinct, and every valid id occurs in
the Atoms collection. -/
theorem c5_renumber_bijection (atoms : List Row) (valid : List Nat)
    (hv : valid.Nodup)
    (hids : (atoms.map (fun r => r.getD 0 0)).Nodup)
    (hsub : ∀ v ∈ valid, v ∈ atoms.map (fun r => r.getD 0 0)) :
    ((refine_atoms atoms valid).2).map Prod.fst
        = (atoms.map (fun r => r.getD 0 0)).filter (fun v => valid.contains v) ∧
    (((refine_atoms atoms valid).2).map Prod.fst).Nodup ∧
    (∀ v ∈ ((refine_atoms atoms valid).2).map Prod.fst, v ∈ valid) ∧
    (∀ v ∈ valid, v ∈ ((refine_atoms atoms valid).2).map Prod.fst) ∧
    ((refine_atoms atoms valid).2).map Prod.snd
        = List.range' 1 ((refine_atoms atoms valid).2).length ∧
    ((refine_atoms atoms valid).2).length = valid.length := by
  simp only [refine_atoms]
  have hfst := refine_atoms_aux_fst_ids valid 1 atoms
  have hsnd := refine_atoms_aux_snd_range valid 1 atoms
  have hmem : ∀ v, v ∈ ((refine_atoms_aux valid 1 atoms).2).map Prod.fst ↔ v ∈ valid := by
    intro v
    rw [hfst, List.mem_filter]
    constructor
    · intro hx
      have := hx.2
      simpa using this
    · intro hx
      exact ⟨hsub v hx, by simpa using hx⟩
  have hnodup : (((refine_atoms_aux valid 1 atoms).2).map Prod.fst).Nodup := by
    rw [hfst]
    exact hids.filter _
  have hlen : ((refine_atoms_aux valid 1 atoms).2).length = valid.length := by
    have hperm : List.Perm (((refine_atoms_aux valid 1 atoms).2).map Prod.fst) valid :=
      (List.perm_ext_iff_of_nodup hnodup hv).mpr hmem
    have := hperm.length_eq
    simpa using this
  exact ⟨hfst, hnodup, fun v hv' => (hmem v).mp hv', fun v hv' => (hmem v).mpr hv', hsnd, hlen⟩

theorem c5_witness :
    ((refine_atoms [[1, 1, 1, 9, 0, 0, 0], [2, 1, 1, 9, 0, 0, 0], [3, 1, 2, 9, 0, 0, 0]]
        [1, 3]).2).map Prod.fst
      = (([[1, 1, 1, 9, 0, 0, 0], [2, 1, 1, 9, 0, 0, 0], [3, 1, 2, 9, 0, 0, 0]].map
          (fun r => r.getD 0 0)).filter (fun v => [1, 3].contains v)) ∧
    (((refine_atoms [[1, 1, 1, 9, 0, 0, 0], [2, 1, 1, 9, 0, 0, 0], [3, 1, 2, 9, 0, 0, 0]]
        [1, 3]).2).map Prod.fst).Nodup ∧
    (∀ v ∈ ((refine_atoms [[1, 1, 1, 9, 0, 0, 0], [2, 1, 1, 9, 0, 0, 0], [3, 1, 2, 9, 0, 0, 0]]
        [1, 3]).2).map Prod.fst, v ∈ [1, 3]) ∧
    (∀ v ∈ [1, 3], v ∈ ((refine_atoms [[1, 1, 1, 9, 0, 0, 0], [2, 1, 1, 9, 0, 0, 0],
        [3, 1, 2, 9, 0, 0, 0]] [1, 3]).2).map Prod.fst) ∧
    ((refine_atoms [[1, 1, 1, 9, 0, 0, 0], [2, 1, 1, 9, 0, 0, 0], [3, 1, 2, 9, 0, 0, 0]]
        [1, 3]).2).map Prod.snd
      = List.range' 1 ((refine_atoms [[1, 1, 1, 9, 0, 0, 0], [2, 1, 1, 9, 0, 0, 0],
          [3, 1, 2, 9, 0, 0, 0]] [1, 3]).2).length ∧
    ((refine_atoms [[1, 1, 1, 9, 0, 0, 0], [2, 1, 1, 9, 0, 0, 0], [3, 1, 2, 9, 0, 0, 0]]
        [1, 3]).2).length = ([1, 3] : List Nat).length :=
  c5_renumber_bijection _ _ (by decide) (by decide) (by decide)

end BondReact

namespace BondReact

theorem rewriteCols_length (m : List (Nat × Nat)) (cols : List Nat) (row r : Row)
    (h : rewriteCols m cols row = some r) : r.length = row.length := by
  induction cols generalizing row with
  | nil =>
    simp [rewriteCols] at h
    subst h
    rfl
  | cons c cs ih =>
    simp only [rewriteCols] at h
    cases hl : lookupKey m (row.getD c 0) with
    | none => rw [hl] at h; cases h
    | some v =>
      rw [hl] at h
      have := ih (row.set c v) h
      rw [this, List.length_set]

theorem set_zero_getD (r : Row) (v : Nat) (h : r ≠ []) : (r.set 0 v).getD 0 0 = v := by
  cases r with
  | nil => exact absurd rfl h
  | cons a t => rfl

theorem refine_records_aux_spec (cols : List Nat) (valid : List Nat) (m : List (Nat × Nat))
    (data : List Row) (next : Nat) (out : List Row)
    (hrows : ∀ r ∈ data, r ≠ [])
    (h : refine_records_aux cols valid m next data = some out) :
    ∀ i, (hi : i < out.length) → ∃ orig ∈ data,
      (∀ c ∈ cols, orig.getD c 0 ∈ valid) ∧
      (rewriteCols m cols orig).isSome = true ∧
      out.get ⟨i, hi⟩ = ((rewriteCols m cols orig).getD []).set 0 (next + i) ∧
      (out.get ⟨i, hi⟩).getD 0 0 = next + i := by
  induction data generalizing next out with
  | nil =>
    simp [refine_records_aux] at h
    subst h
    intro i hi
    simp at hi
  | cons row rest ih =>
    simp only [refine_records_aux] at h
    by_cases hc : (cols.all fun c => valid.contains (row.getD c 0)) = true
    · rw [if_pos hc] at h
      cases hrw : rewriteCols m cols row with
      | none => rw [hrw] at h; cases h
      | some r =>
        rw [hrw] at h
        cases hrec : refine_records_aux cols valid m (next + 1) rest with
        | none => rw [hrec] at h; cases h
        | some rs =>
          rw [hrec] at h
          injection h with h
          subst h
          intro i hi
          cases i with
          | zero =>
            refine ⟨row, List.mem_cons_self row rest, ?_, ?_, ?_, ?_⟩
            · intro c hcc
              have := List.all_eq_true.mp hc c hcc
              simpa using this
            · rw [hrw]; rfl
            · rw [hrw]; rfl
            · have hr : r ≠ [] := by
                intro hnil
                have hle := rewriteCols_length m cols row r hrw
                rw [hnil] at hle
                exact hrows row (List.mem_cons_self row rest)
                  (List.length_eq_zero.mp (by simpa using hle.symm))
              have h0 : ((r.set 0 next) :: rs).get ⟨0, hi⟩ = r.set 0 next := rfl
              rw [h0, Nat.add_zero]
              exact set_zero_getD r next hr
          | succ i =>
            have hi' : i < rs.length := by simpa using hi
            obtain ⟨orig, ho, hvv, hsome, hget, hid⟩ :=
              ih (next + 1) rs (fun r' hr' => hrows r' (List.mem_cons_of_mem row hr')) hrec i hi'
            refine ⟨orig, List.mem_cons_of_mem row ho, hvv, hsome, ?_, ?_⟩
            · have : next + 1 + i = next + (i + 1) := by omega
              rw [← this]
              simpa using hget
            · have : next + 1 + i = next + (i + 1) := by omega
              rw [← this]
              simpa using hid
    · rw [if_neg hc] at h
      intro i hi
      obtain ⟨orig, ho, hvv, hsome, hget, hid⟩ :=
        ih next out (fun r' hr' => hrows r' (List.mem_cons_of_mem row hr')) h i hi
      exact ⟨orig, List.mem_cons_of_mem row ho, hvv, hsome, hget, hid⟩

theorem refine_records_spec (cols : List Nat) (valid : List Nat) (m : List (Nat × Nat))
    (data out : List Row)
    (hrows : ∀ r ∈ data, r ≠ [])
    (h : refine_records cols valid m data = some out) :
    refinedCorrectly cols valid m data out := by
  intro i hi
  obtain ⟨orig, ho, h1, h2, h3, h4⟩ :=
    refine_records_aux_spec cols valid m data 1 out hrows h i hi
  refine ⟨orig, ho, h1, h2, ?_, ?_⟩
  · rw [h3]
    congr 1
    omega
  · rw [h4]
    omega

end BondReact

namespace BondReact

theorem core_ok_inv (atoms bondList angleList dihedralList improperList : List Row)
    (bondingAtoms : List Nat) (deleteAtoms : Option (List Nat))
    (ext : Option (List (Nat × List Nat))) (out : MoleculeOutput)
    (h : lammps_to_molecule_partial_core atoms bondList angleList dihedralList improperList
      bondingAtoms deleteAtoms ext = .ok out) :
    out.validAtomSet = (coreValidEdge bondList bondingAtoms deleteAtoms ext).1 ∧
    out.renumberMap = (refine_atoms atoms out.validAtomSet).2 ∧
    out.fingerprints = coreFingerprints bondList bondingAtoms deleteAtoms ∧
    refine_records [2, 3] out.validAtomSet out.renumberMap bondList = some out.bonds ∧
    refine_records [2, 3, 4] out.validAtomSet out.renumberMap angleList = some out.angles ∧
    refine_records [2, 3, 4, 5] out.validAtomSet out.renumberMap dihedralList
      = some out.dihedrals ∧
    refine_records [2, 3, 4, 5] out.validAtomSet out.renumberMap improperList
      = some out.impropers ∧
    out.types = (refine_atoms atoms out.validAtomSet).1.map (fun a => [a.getD 0 0, a.getD 2 0]) ∧
    out.headerCounts = [sectionCount out.types, sectionCount out.bonds, sectionCount out.angles,
      sectionCount out.dihedrals, sectionCount out.impropers] := by
  unfold lammps_to_molecule_partial_core at h
  split at h
  · cases h
  · split at h
    · split at h
      · injection h with h
        subst h
        simp_all [mkOutput]
      · cases h
    · cases h

end BondReact

namespace BondReact

/-- C6: for every record kind (atoms/types, bonds, angles, dihedrals,
impropers), the header count field recomputed by a successful extraction
equals the number of surviving records of that kind; an empty section yields
the valid count zero. -/
theorem c6_header_counts (atoms bondList angleList dihedralList improperList : List Row)
    (bondingAtoms : List Nat) (deleteAtoms : Option (List Nat))
    (ext : Option (List (Nat × List Nat)))
    (h : resultIsOk (lammps_to_molecule_partial_core atoms bondList angleList dihedralList improperList
      bondingAtoms deleteAtoms ext) = true) :
    resultHeaderCounts (lammps_to_molecule_partial_core atoms bondList angleList dihedralList improperList
      bondingAtoms deleteAtoms ext)
      = [(resultTypes (lammps_to_molecule_partial_core atoms bondList angleList dihedralList improperList
      bondingAtoms deleteAtoms ext)).length,
         (resultBonds (lammps_to_molecule_partial_core atoms bondList angleList dihedralList improperList
      bondingAtoms deleteAtoms ext)).length,
         (resultAngles (lammps_to_molecule_partial_core atoms bondList angleList dihedralList improperList
      bondingAtoms deleteAtoms ext)).length,
         (resultDihedrals (lammps_to_molecule_partial_core atoms bondList angleList dihedralList improperList
      bondingAtoms deleteAtoms ext)).length,
         (resultImpropers (lammps_to_molecule_partial_core atoms bondList angleList dihedralList improperList
      bondingAtoms deleteAtoms ext)).length] := by
  cases hr : lammps_to_molecule_partial_core atoms bondList angleList dihedralList improperList
      bondingAtoms deleteAtoms ext with
  | error e =>
    rw [hr] at h
    simp [resultIsOk] at h
  | ok out =>
    obtain ⟨-, -, -, -, -, -, -, -, hhc⟩ :=
      core_ok_inv atoms bondList angleList dihedralList improperList bondingAtoms deleteAtoms
        ext out hr
    simp only [resultHeaderCounts, resultTypes, resultBonds, resultAngles, resultDihedrals,
      resultImpropers]
    rw [hhc]
    simp [sectionCount_eq]

theorem c6_witness :
    resultHeaderCounts (lammps_to_molecule_partial_core [[1, 1, 1, 9, 0, 0, 0], [2, 1, 1, 9, 0, 0, 0], [3, 1, 2, 9, 0, 0, 0]]
      [[1, 1, 1, 2], [2, 1, 2, 3]] [[1, 1, 1, 2, 3]] [] [] [1] none none)
      = [(resultTypes (lammps_to_molecule_partial_core [[1, 1, 1, 9, 0, 0, 0], [2, 1, 1, 9, 0, 0, 0], [3, 1, 2, 9, 0, 0, 0]]
      [[1, 1, 1, 2], [2, 1, 2, 3]] [[1, 1, 1, 2, 3]] [] [] [1] none none)).length,
         (resultBonds (lammps_to_molecule_partial_core [[1, 1, 1, 9, 0, 0, 0], [2, 1, 1, 9, 0, 0, 0], [3, 1, 2, 9, 0, 0, 0]]
      [[1, 1, 1, 2], [2, 1, 2, 3]] [[1, 1, 1, 2, 3]] [] [] [1] none none)).length,
         (resultAngles (lammps_to_molecule_partial_core [[1, 1, 1, 9, 0, 0, 0], [2, 1, 1, 9, 0, 0, 0], [3, 1, 2, 9, 0, 0, 0]]
      [[1, 1, 1, 2], [2, 1, 2, 3]] [[1, 1, 1, 2, 3]] [] [] [1] none none)).length,
         (resultDihedrals (lammps_to_molecule_partial_core [[1, 1, 1, 9, 0, 0, 0], [2, 1, 1, 9, 0, 0, 0], [3, 1, 2, 9, 0, 0, 0]]
      [[1, 1, 1, 2], [2, 1, 2, 3]] [[1, 1, 1, 2, 3]] [] [] [1] none none)).length,
         (resultImpropers (lammps_to_molecule_partial_core [[1, 1, 1, 9, 0, 0, 0], [2, 1, 1, 9, 0, 0, 0], [3, 1, 2, 9, 0, 0, 0]]
      [[1, 1, 1, 2], [2, 1, 2, 3]] [[1, 1, 1, 2, 3]] [] [] [1] none none)).length] :=
  c6_header_counts [[1, 1, 1, 9, 0, 0, 0], [2, 1, 1, 9, 0, 0, 0], [3, 1, 2, 9, 0, 0, 0]]
    [[1, 1, 1, 2], [2, 1, 2, 3]] [[1, 1, 1, 2, 3]] [] [] [1] none none (by rfl)

/-- C2 corrected: when a boundary-extension mapping is supplied, the stored
per-edge-atom fingerprint collection is the one computed before the extension:
every entry belongs to a pre-extension edge atom and lists exactly its
original-bond-graph neighbours outside the pre-extension ValidAtomSet (not the
final, enlarged one). -/
theorem c2_fingerprints_pre_extension (atoms bondList angleList dihedralList improperList : List Row)
    (bondingAtoms : List Nat) (deleteAtoms : Option (List Nat))
    (ext : Option (List (Nat × List Nat)))
    (h : resultIsOk (lammps_to_molecule_partial_core atoms bondList angleList dihedralList improperList
      bondingAtoms deleteAtoms ext) = true) :
    ∀ p ∈ resultFingerprints (lammps_to_molecule_partial_core atoms bondList angleList dihedralList improperList
      bondingAtoms deleteAtoms ext),
      p.1 ∈ (coreSearch bondList bondingAtoms deleteAtoms).2 ∧
      p.2 = (bondPartners bondList p.1).filter
        (fun b => !((coreSearch bondList bondingAtoms deleteAtoms).1.contains b)) := by
  cases hr : lammps_to_molecule_partial_core atoms bondList angleList dihedralList improperList
      bondingAtoms deleteAtoms ext with
  | error e =>
    rw [hr] at h
    simp [resultIsOk] at h
  | ok out =>
    obtain ⟨-, -, hfp, -, -, -, -, -, -⟩ :=
      core_ok_inv atoms bondList angleList dihedralList improperList bondingAtoms deleteAtoms
        ext out hr
    intro p hp
    simp only [resultFingerprints] at hp
    rw [hfp] at hp
    simp only [coreFingerprints, edge_atom_fingerprint_ids, List.mem_map] at hp
    obtain ⟨e, he, rfl⟩ := hp
    exact ⟨he, rfl⟩

theorem c2_witness :
    ((4, [5]) : Nat × List Nat).1
        ∈ (coreSearch [[1, 1, 1, 2], [2, 1, 2, 3], [3, 1, 3, 4], [4, 1, 4, 5]] [1] none).2 ∧
    ((4, [5]) : Nat × List Nat).2
        = (bondPartners [[1, 1, 1, 2], [2, 1, 2, 3], [3, 1, 3, 4], [4, 1, 4, 5]]
            ((4, [5]) : Nat × List Nat).1).filter
          (fun b => !((coreSearch [[1, 1, 1, 2], [2, 1, 2, 3], [3, 1, 3, 4], [4, 1, 4, 5]]
            [1] none).1.contains b)) :=
  c2_fingerprints_pre_extension [[1, 1, 1, 9, 0, 0, 0], [2, 1, 1, 9, 0, 0, 0], [3, 1, 1, 9, 0, 0, 0], [4, 1, 1, 9, 0, 0, 0],
        [5, 1, 1, 9, 0, 0, 0]]
    [[1, 1, 1, 2], [2, 1, 2, 3], [3, 1, 3, 4], [4, 1, 4, 5]] [] [] [] [1] none (some [(4, [5])])
    (by rfl) (4, [5]) (by decide)

/-- C1: for every relational record kind (bonds with atom columns 2-3, angles
with 2-4, dihedrals and impropers with 2-5), a record survives into the output
of a successful extraction only if every atom id it references is in the final
ValidAtomSet; each survivor has those columns rewritten through the
RenumberMap and its own identifier reassigned sequentially from 1 in survival
order, so no surviving record references an atom id outside the ValidAtomSet. -/
theorem c1_relational_records (atoms bondList angleList dihedralList improperList : List Row)
    (bondingAtoms : List Nat) (deleteAtoms : Option (List Nat))
    (ext : Option (List (Nat × List Nat)))
    (hbg : ∀ r ∈ bondList, r ≠ []) (hag : ∀ r ∈ angleList, r ≠ [])
    (hdg : ∀ r ∈ dihedralList, r ≠ []) (hig : ∀ r ∈ improperList, r ≠ [])
    (h : resultIsOk (lammps_to_molecule_partial_core atoms bondList angleList dihedralList improperList
      bondingAtoms deleteAtoms ext) = true) :
    refinedCorrectly [2, 3] (resultValidAtomSet (lammps_to_molecule_partial_core atoms bondList angleList dihedralList improperList
      bondingAtoms deleteAtoms ext))
      (resultMap (lammps_to_molecule_partial_core atoms bondList angleList dihedralList improperList
      bondingAtoms deleteAtoms ext)) bondList (resultBonds (lammps_to_molecule_partial_core atoms bondList angleList dihedralList improperList
      bondingAtoms deleteAtoms ext)) ∧
    refinedCorrectly [2, 3, 4] (resultValidAtomSet (lammps_to_molecule_partial_core atoms bondList angleList dihedralList improperList
      bondingAtoms deleteAtoms ext))
      (resultMap (lammps_to_molecule_partial_core atoms bondList angleList dihedralList improperList
      bondingAtoms deleteAtoms ext)) angleList (resultAngles (lammps_to_molecule_partial_core atoms bondList angleList dihedralList improperList
      bondingAtoms deleteAtoms ext)) ∧
    refinedCorrectly [2, 3, 4, 5] (resultValidAtomSet (lammps_to_molecule_partial_core atoms bondList angleList dihedralList improperList
      bondingAtoms deleteAtoms ext))
      (resultMap (lammps_to_molecule_partial_core atoms bondList angleList dihedralList improperList
      bondingAtoms deleteAtoms ext)) dihedralList (resultDihedrals (lammps_to_molecule_partial_core atoms bondList angleList dihedralList improperList
      bondingAtoms deleteAtoms ext)) ∧
    refinedCorrectly [2, 3, 4, 5] (resultValidAtomSet (lammps_to_molecule_partial_core atoms bondList angleList dihedralList improperList
      bondingAtoms deleteAtoms ext))
      (resultMap (lammps_to_molecule_partial_core atoms bondList angleList dihedralList improperList
      bondingAtoms deleteAtoms ext)) improperList (resultImpropers (lammps_to_molecule_partial_core atoms bondList angleList dihedralList improperList
      bondingAtoms deleteAtoms ext)) := by
  cases hr : lammps_to_molecule_partial_core atoms bondList angleList dihedralList improperList
      bondingAtoms deleteAtoms ext with
  | error e =>
    rw [hr] at h
    simp [resultIsOk] at h
  | ok out =>
    obtain ⟨-, -, -, hbb, haa, hdd, hii, -, -⟩ :=
      core_ok_inv atoms bondList angleList dihedralList improperList bondingAtoms deleteAtoms
        ext out hr
    simp only [resultValidAtomSet, resultMap, resultBonds, resultAngles, resultDihedrals,
      resultImpropers]
    exact ⟨refine_records_spec _ _ _ _ _ hbg hbb, refine_records_spec _ _ _ _ _ hag haa,
      refine_records_spec _ _ _ _ _ hdg hdd, refine_records_spec _ _ _ _ _ hig hii⟩

theorem c1_witness :
    refinedCorrectly [2, 3] (resultValidAtomSet (lammps_to_molecule_partial_core [[1, 1, 1, 9, 0, 0, 0], [2, 1, 1, 9, 0, 0, 0], [3, 1, 2, 9, 0, 0, 0]]
      [[1, 1, 1, 2], [2, 1, 2, 3]] [[1, 1, 1, 2, 3]] [] [] [1] none none))
      (resultMap (lammps_to_molecule_partial_core [[1, 1, 1, 9, 0, 0, 0], [2, 1, 1, 9, 0, 0, 0], [3, 1, 2, 9, 0, 0, 0]]
      [[1, 1, 1, 2], [2, 1, 2, 3]] [[1, 1, 1, 2, 3]] [] [] [1] none none)) [[1, 1, 1, 2], [2, 1, 2, 3]] (resultBonds (lammps_to_molecule_partial_core [[1, 1, 1, 9, 0, 0, 0], [2, 1, 1, 9, 0, 0, 0], [3, 1, 2, 9, 0, 0, 0]]
      [[1, 1, 1, 2], [2, 1, 2, 3]] [[1, 1, 1, 2, 3]] [] [] [1] none none)) ∧
    refinedCorrectly [2, 3, 4] (resultValidAtomSet (lammps_to_molecule_partial_core [[1, 1, 1, 9, 0, 0, 0], [2, 1, 1, 9, 0, 0, 0], [3, 1, 2, 9, 0, 0, 0]]
      [[1, 1, 1, 2], [2, 1, 2, 3]] [[1, 1, 1, 2, 3]] [] [] [1] none none))
      (resultMap (lammps_to_molecule_partial_core [[1, 1, 1, 9, 0, 0, 0], [2, 1, 1, 9, 0, 0, 0], [3, 1, 2, 9, 0, 0, 0]]
      [[1, 1, 1, 2], [2, 1, 2, 3]] [[1, 1, 1, 2, 3]] [] [] [1] none none)) [[1, 1, 1, 2, 3]] (resultAngles (lammps_to_molecule_partial_core [[1, 1, 1, 9, 0, 0, 0], [2, 1, 1, 9, 0, 0, 0], [3, 1, 2, 9, 0, 0, 0]]
      [[1, 1, 1, 2], [2, 1, 2, 3]] [[1, 1, 1, 2, 3]] [] [] [1] none none)) ∧
    refinedCorrectly [2, 3, 4, 5] (resultValidAtomSet (lammps_to_molecule_partial_core [[1, 1, 1, 9, 0, 0, 0], [2, 1, 1, 9, 0, 0, 0], [3, 1, 2, 9, 0, 0, 0]]
      [[1, 1, 1, 2], [2, 1, 2, 3]] [[1, 1, 1, 2, 3]] [] [] [1] none none))
      (resultMap (lammps_to_molecule_partial_core [[1, 1, 1, 9, 0, 0, 0], [2, 1, 1, 9, 0, 0, 0], [3, 1, 2, 9, 0, 0, 0]]
      [[1, 1, 1, 2], [2, 1, 2, 3]] [[1, 1, 1, 2, 3]] [] [] [1] none none)) [] (resultDihedrals (lammps_to_molecule_partial_core [[1, 1, 1, 9, 0, 0, 0], [2, 1, 1, 9, 0, 0, 0], [3, 1, 2, 9, 0, 0, 0]]
      [[1, 1, 1, 2], [2, 1, 2, 3]] [[1, 1, 1, 2, 3]] [] [] [1] none none)) ∧
    refinedCorrectly [2, 3, 4, 5] (resultValidAtomSet (lammps_to_molecule_partial_core [[1, 1, 1, 9, 0, 0, 0], [2, 1, 1, 9, 0, 0, 0], [3, 1, 2, 9, 0, 0, 0]]
      [[1, 1, 1, 2], [2, 1, 2, 3]] [[1, 1, 1, 2, 3]] [] [] [1] none none))
      (resultMap (lammps_to_molecule_partial_core [[1, 1, 1, 9, 0, 0, 0], [2, 1, 1, 9, 0, 0, 0], [3, 1, 2, 9, 0, 0, 0]]
      [[1, 1, 1, 2], [2, 1, 2, 3]] [[1, 1, 1, 2, 3]] [] [] [1] none none)) [] (resultImpropers (lammps_to_molecule_partial_core [[1, 1, 1, 9, 0, 0, 0], [2, 1, 1, 9, 0, 0, 0], [3, 1, 2, 9, 0, 0, 0]]
      [[1, 1, 1, 2], [2, 1, 2, 3]] [[1, 1, 1, 2, 3]] [] [] [1] none none)) :=
  c1_relational_records [[1, 1, 1, 9, 0, 0, 0], [2, 1, 1, 9, 0, 0, 0], [3, 1, 2, 9, 0, 0, 0]]
    [[1, 1, 1, 2], [2, 1, 2, 3]] [[1, 1, 1, 2, 3]] [] [] [1] none none (by decide) (by decide) (by decide)
    (by decide) (by rfl)

end BondReact

namespace MapTesting

theorem countCorrect_eq_none (mapped : List (Nat × Nat)) (correct : List (Nat × List Nat))
    (h : ∃ p ∈ mapped, BondReact.lookupKey correct p.1 = none) :
    countCorrect mapped correct = none := by
  induction mapped with
  | nil => simp at h
  | cons q rest ih =>
    obtain ⟨pre, post⟩ := q
    obtain ⟨p, hp, hnone⟩ := h
    rcases List.mem_cons.mp hp with rfl | hp'
    · simp only [countCorrect]
      rw [show BondReact.lookupKey correct (pre, post).1 = BondReact.lookupKey correct pre
        from rfl] at hnone
      rw [hnone]
    · simp only [countCorrect]
      cases hl : BondReact.lookupKey correct pre with
      | none => rfl
      | some posts =>
        rw [ih ⟨p, hp', hnone⟩]
        rfl

/-- C10: whenever the mapped id list contains a pair whose pre-reaction atom
id is not a key of the correct-answer dictionary handed to test_report, the
accounting loop raises KeyError, so the run ends in the key error and none of
the lines printed up to that point is the accuracy summary line. -/
theorem c10_test_report_keyerror (mapped : List (Nat × Nat)) (correct : List (Nat × List Nat))
    (h : ∃ p ∈ mapped, BondReact.lookupKey correct p.1 = none) :
    (test_report mapped correct).2 = some TestError.keyError ∧
    ∀ e ∈ (test_report mapped correct).1, e.isSummary = false := by
  have hc := countCorrect_eq_none mapped correct h
  constructor
  · simp [test_report, hc]
  · intro e he
    simp only [test_report, hc] at he
    rcases List.mem_cons.mp he with rfl | he'
    · rfl
    · obtain ⟨p, hp, rfl⟩ := List.mem_map.mp he'
      rfl

theorem c10_witness :
    (test_report [(1, 2)] []).2 = some TestError.keyError ∧
    ∀ e ∈ (test_report [(1, 2)] []).1, e.isSummary = false :=
  c10_test_report_keyerror [(1, 2)] [] ⟨(1, 2), by decide, rfl⟩

end MapTesting
